import Mathlib

/-!
Verification development for the Face-attendance-system repository.

The repository ships the documentation of its video-to-attendance pipeline
(README, project_plan.md), the relational schema (Supabase SQL), deployment
scripts and the React frontend.  The Python pipeline modules named by the
README (app.py, detector.py, enrollment_app.py) are not part of the tree,
so the Matcher and AttendanceAggregator below are modelled from the spec,
while the frontend flows (face registration, login, settings) are embedded
directly from the TypeScript sources.

All similarity scores and ratios are modelled over ℚ.
-/

namespace FaceAttendance

/-! ## Matcher (spec-modelled) -/

/-- Modelled from the spec: an enrolled student of the Gallery — identity
plus one-or-more reference ("gallery") embeddings (spec §3, §4.5).  The
embedding type is a parameter; the wrapped recognition model is an opaque
pure scoring function (spec §9). -/
structure EnrolledStudent (α : Type) where
  sid : Nat
  name : String
  gallery : List α
deriving DecidableEq

/-- Modelled from the spec: `similarity_threshold` — minimum cosine
similarity for a match (design default 0.363, spec §4.5 and README
"similarity_threshold = 0.363"). -/
def similarity_threshold : ℚ := mkRat 363 1000

/-- Modelled from the spec: a student's score against a probe is the
maximum similarity across the student's gallery embeddings (best-of-N,
not average; spec §4.5).  `-2` is below every cosine similarity and is
returned only for an (ill-formed) empty gallery list. -/
def studentScore (sim : α → α → ℚ) (probe : α) (s : EnrolledStudent α) : ℚ :=
  match s.gallery with
  | [] => -2
  | e :: es => es.foldl (fun a b => max a (sim probe b)) (sim probe e)

/-- Candidate `a` beats candidate `b`: strictly higher score, or the same
score with a lower student id (spec §4.5 tie-break). -/
def beats (a b : Nat × ℚ) : Bool :=
  decide (b.2 < a.2) || (decide (a.2 = b.2) && decide (a.1 < b.1))

/-- Modelled from the spec: the best candidate over the gallery — the
student with the highest score, ties broken by lowest student id
(spec §4.5).  `none` only on an empty gallery. -/
def bestCandidate (sim : α → α → ℚ) (probe : α) :
    List (EnrolledStudent α) → Option (Nat × ℚ)
  | [] => none
  | s :: rest =>
    let c := (s.sid, studentScore sim probe s)
    match bestCandidate sim probe rest with
    | none => some c
    | some b => some (if beats b c then b else c)

/-- Modelled from the spec: `match(probe, gallery)` — pick the best
candidate; if its score is below the similarity threshold return NONE
(unknown face), a score equal to the threshold counts as a match
(spec §4.5, §8 Scenario C). -/
def matchProbe (sim : α → α → ℚ) (θ : ℚ) (probe : α)
    (g : List (EnrolledStudent α)) : Option (Nat × ℚ) :=
  match bestCandidate sim probe g with
  | none => none
  | some c => if θ ≤ c.2 then some c else none

/-- Whether a probe frame counts as a match for student `sid` at
threshold `θ`. -/
def frameMatches (sim : α → α → ℚ) (θ : ℚ) (g : List (EnrolledStudent α))
    (probe : α) (sid : Nat) : Bool :=
  match matchProbe sim θ probe g with
  | some c => c.1 == sid
  | none => false

/-- The indices of the frames (probe sequence positions) counted as a
match for student `sid` at threshold `θ` (spec §8, monotonicity
property). -/
def matchedFrames (sim : α → α → ℚ) (θ : ℚ) (g : List (EnrolledStudent α))
    (probes : List α) (sid : Nat) : List Nat :=
  (probes.enum.filter (fun p => frameMatches sim θ g p.2 sid)).map Prod.fst

/-- An opaque scoring function over ℚ-coded embeddings, used for concrete
checks: the similarity of any probe to a gallery embedding is the value
stored in the gallery embedding itself. -/
def simId : ℚ → ℚ → ℚ := fun _ e => e

/-- A one-student gallery for concrete checks: student 1 with a gallery
embedding scoring exactly the 0.363 threshold and a weaker one. -/
def galleryW : List (EnrolledStudent ℚ) :=
  [⟨1, "S1", [mkRat 363 1000, mkRat 1 10]⟩]

/-- A two-student gallery for concrete checks in which students 5 and 3
attain the same maximal score. -/
def galleryTie : List (EnrolledStudent ℚ) :=
  [⟨5, "A", [mkRat 1 2]⟩, ⟨3, "B", [mkRat 1 2]⟩]

/-! ## AttendanceAggregator (spec-modelled) -/

/-- Modelled from the spec: the per-student tally of the aggregator state
(spec §4.6 Init). -/
structure Tally where
  detections : Nat
  similarity_sum : ℚ
  best_frame : Option Nat
  best_similarity : ℚ
deriving DecidableEq

/-- Initial tally: detections 0, similarity_sum 0, no best frame,
best_similarity -1 (spec §4.6 Init). -/
def initTally : Tally := ⟨0, 0, none, -1⟩

/-- Modelled from the spec: what one sampled frame contributes to the
aggregation — the number of DetectedFaces it produced and its MatchEvents
resolving to a known student, as (student id, similarity) pairs
(spec §3, §4.6). -/
structure FrameResult where
  faces : Nat
  events : List (Nat × ℚ)

/-- Modelled from the spec: the aggregator state — frames_total plus a
per-student tally keyed by student id (spec §4.6, §9 explicit
accumulator). -/
structure AggState where
  frames_total : Nat
  tallies : Nat → Tally

/-- Init state of one session (spec §4.6 Init). -/
def initState : AggState := ⟨0, fun _ => initTally⟩

/-- Modelled from the spec: apply one MatchEvent of frame `idx`: increment
the student's detections, add the similarity to similarity_sum, and
replace best_frame/best_similarity when this similarity exceeds the
recorded best (spec §4.6 Accumulate). -/
def applyEvent (idx : Nat) (st : AggState) (e : Nat × ℚ) : AggState :=
  let t := st.tallies e.1
  let t' : Tally :=
    { detections := t.detections + 1
      similarity_sum := t.similarity_sum + e.2
      best_frame := if t.best_similarity < e.2 then some idx else t.best_frame
      best_similarity := if t.best_similarity < e.2 then e.2 else t.best_similarity }
  { st with tallies := fun j => if j = e.1 then t' else st.tallies j }

/-- Modelled from the spec: one Accumulate step — frames_total += 1 only
if the frame produced at least one DetectedFace, then fold the frame's
MatchEvents into the tallies (spec §4.6 Accumulate). -/
def accumulateFrame (st : AggState) (idx : Nat) (fr : FrameResult) : AggState :=
  let st1 := if 0 < fr.faces then { st with frames_total := st.frames_total + 1 } else st
  fr.events.foldl (applyEvent idx) st1

/-- Run the accumulation over the remaining frames, `idx` being the index
of the next frame. -/
def runFrom (idx : Nat) (st : AggState) : List FrameResult → AggState
  | [] => st
  | fr :: rest => runFrom (idx + 1) (accumulateFrame st idx fr) rest

/-- Accumulate a whole sampled sequence from the Init state. -/
def runAggregate (frames : List FrameResult) : AggState :=
  runFrom 0 initState frames

/-- Modelled from the spec: consensus threshold 0.60 (spec §4.6
Finalize). -/
def consensus_threshold : ℚ := mkRat 3 5

/-- Modelled from the spec: the per-student AttendanceDecision
(spec §3, §4.6 Finalize).  `presence_frac` is the spec's presence_ratio. -/
structure AttendanceDecision where
  sid : Nat
  is_present : Bool
  confidence : Option ℚ
  presence_frac : ℚ
  frames_detected : Nat
  frames_total : Nat
  best_frame : Option Nat
deriving DecidableEq

/-- Modelled from the spec: Finalize for one enrolled student —
presence_ratio = detections / frames_total (0 when frames_total = 0),
is_present = presence_ratio ≥ 0.60, confidence = similarity_sum /
detections when detections > 0 else null (spec §4.6 Finalize). -/
def finalizeStudent (st : AggState) (sid : Nat) : AttendanceDecision :=
  let t := st.tallies sid
  let r : ℚ := if st.frames_total = 0 then 0 else (t.detections : ℚ) / (st.frames_total : ℚ)
  { sid := sid
    is_present := decide (consensus_threshold ≤ r)
    confidence := if 0 < t.detections then some (t.similarity_sum / (t.detections : ℚ)) else none
    presence_frac := r
    frames_detected := t.detections
    frames_total := st.frames_total
    best_frame := t.best_frame }

/-- Modelled from the spec: the session output — one decision per
enrolled student plus the DegenerateSession flag (frames_total = 0 across
the whole video, surfaced as a distinct warning state; spec §7). -/
structure SessionResult where
  decisions : List AttendanceDecision
  degenerate : Bool
deriving DecidableEq

/-- Finalize the whole session for a roster of enrolled student ids. -/
def finalize (st : AggState) (roster : List Nat) : SessionResult :=
  { decisions := roster.map (finalizeStudent st)
    degenerate := decide (st.frames_total = 0) }

/-- Run a whole session: accumulate all sampled frames, then finalize. -/
def processSession (frames : List FrameResult) (roster : List Nat) : SessionResult :=
  finalize (runAggregate frames) roster

/-- A well-formed frame contribution: at most one MatchEvent per student
(the spec counts "frames where this student was the best match", §3), and
a frame with no DetectedFace carries no MatchEvents (events come from
detected faces, spec §3, §4.6). -/
def FrameWF (fr : FrameResult) : Prop :=
  (fr.events.map Prod.fst).Nodup ∧ (fr.events ≠ [] → 0 < fr.faces)

instance (fr : FrameResult) : Decidable (FrameWF fr) := by
  unfold FrameWF; infer_instance

/-- Spec §8 Scenario B: of 10 sampled frames, 5 match student S1 (id 1)
at similarity 0.5 and 5 produce no faces at all. -/
def framesScenB : List FrameResult :=
  [⟨1, [(1, mkRat 1 2)]⟩, ⟨1, [(1, mkRat 1 2)]⟩, ⟨1, [(1, mkRat 1 2)]⟩,
   ⟨1, [(1, mkRat 1 2)]⟩, ⟨1, [(1, mkRat 1 2)]⟩,
   ⟨0, []⟩, ⟨0, []⟩, ⟨0, []⟩, ⟨0, []⟩, ⟨0, []⟩]

/-! ## FaceRegistrationModal (embedded from the TypeScript source) -/

/-- A captured photo of the face-registration modal: the `crypto.randomUUID`
id and the JPEG blob, both abstracted to naturals. -/
structure CapturedPhoto where
  pid : Nat
  blob : Nat
deriving DecidableEq

/-- The capture handler `capturePhoto`: a no-op once 3 photos exist (the early return on
`capturedPhotos.length >= 3`); otherwise, when the refs/context/blob all
succeed (`ok`), the `toBlob` callback appends the new photo. -/
def capturePhoto (photos : List CapturedPhoto) (p : CapturedPhoto) (ok : Bool) :
    List CapturedPhoto :=
  if 3 ≤ photos.length then photos
  else if ok then photos ++ [p] else photos

/-- The removal handler `removePhoto`: `setCapturedPhotos(prev => prev.filter(p => p.id !== id))`. -/
def removePhoto (photos : List CapturedPhoto) (pid : Nat) : List CapturedPhoto :=
  photos.filter (fun q => q.pid != pid)

/-- A user interaction with the capture step: a capture attempt or a
removal by photo id. -/
inductive PhotoOp where
  | capture (p : CapturedPhoto) (ok : Bool)
  | remove (pid : Nat)

/-- Apply one interaction to the captured-photos state. -/
def applyPhotoOp (photos : List CapturedPhoto) : PhotoOp → List CapturedPhoto
  | .capture p ok => capturePhoto photos p ok
  | .remove pid => removePhoto photos pid

/-- Run a sequence of interactions from the empty captured-photos state
(the component's initial and reset state). -/
def runPhotoOps (ops : List PhotoOp) : List CapturedPhoto :=
  ops.foldl applyPhotoOp []

/-- The save handler `handleSave`: refuses with "Please capture all 3 photos" when fewer
than 3 photos are captured; otherwise issues `registerEnrollment` with
`capturedPhotos.map(photo => photo.blob)`.  Returns the submitted blobs,
`none` when no request is issued. -/
def handleSave (photos : List CapturedPhoto) : Option (List Nat) :=
  if photos.length < 3 then none
  else some (photos.map (fun p => p.blob))

/-! ## LoginModal (embedded from the TypeScript source) -/

/-- The two account roles of the login modal. -/
inductive UserRole where
  | teacher
  | student
deriving DecidableEq

/-- The observable outcome of `handleLogin`: which dashboard was navigated
to (if any), whether `supabase.auth.signOut()` was called after a
successful sign-in, and whether an error message was set. -/
structure LoginResult where
  navigatedTo : Option UserRole
  signedOutAgain : Bool
  errored : Bool
deriving DecidableEq

/-- The login handler `handleLogin`: sign-in error → error reported, no navigation; user
present → fetch the profile row; a profile whose role differs from the
selected role → sign out again and report the mismatch error; otherwise
navigate to the dashboard of the selected role.  `profileRole = none`
models "no profile row found". -/
def handleLogin (signInOk : Bool) (userPresent : Bool)
    (profileRole : Option UserRole) (selected : UserRole) : LoginResult :=
  if signInOk = false then ⟨none, false, true⟩
  else if userPresent = false then ⟨none, false, false⟩
  else
    match profileRole with
    | some r => if r ≠ selected then ⟨none, true, true⟩ else ⟨some selected, false, false⟩
    | none => ⟨some selected, false, false⟩

/-! ## Settings page (embedded from the TypeScript source) -/

/-- The body of a successful `api.health()` response (its `status` field). -/
structure HealthData where
  status : String
deriving DecidableEq

/-- JavaScript's `String.prototype.trim()`: strip leading and trailing
whitespace. -/
def trimStr (s : String) : String :=
  ⟨((s.data.dropWhile Char.isWhitespace).reverse.dropWhile Char.isWhitespace).reverse⟩

/-- The test handler `handleTestConnection`: empty trimmed input → message only, URL
unchanged; otherwise set the API base URL to the trimmed input, probe
`api.health()` on it, keep the new URL when the response has data with
status "ok", and restore the original URL otherwise.  `health` maps a
base URL to the response data (`none` models a failed request).  Returns
the persisted API base URL after the handler finishes. -/
def handleTestConnection (stored entered : String)
    (health : String → Option HealthData) : String :=
  if trimStr entered = "" then stored
  else
    let u := trimStr entered
    match health u with
    | some d => if d.status = "ok" then u else stored
    | none => stored

/-! ## Lemmas: matcher -/

lemma foldl_max_init_le {α : Type} (f : α → ℚ) (l : List α) :
    ∀ init : ℚ, init ≤ l.foldl (fun a b => max a (f b)) init := by
  induction l with
  | nil => intro init; simp
  | cons x xs ih =>
    intro init
    simp only [List.foldl_cons]
    exact le_trans (le_max_left init (f x)) (ih (max init (f x)))

lemma foldl_max_mem_le {α : Type} (f : α → ℚ) (l : List α) :
    ∀ init : ℚ, ∀ x ∈ l, f x ≤ l.foldl (fun a b => max a (f b)) init := by
  induction l with
  | nil => intro init x hx; exact absurd hx (List.not_mem_nil x)
  | cons y ys ih =>
    intro init x hx
    simp only [List.foldl_cons]
    rcases List.mem_cons.1 hx with h | h
    · subst h
      exact le_trans (le_max_right init (f x)) (foldl_max_init_le f ys (max init (f x)))
    · exact ih (max init (f y)) x h

lemma foldl_max_attained {α : Type} (f : α → ℚ) (l : List α) :
    ∀ init : ℚ, l.foldl (fun a b => max a (f b)) init = init ∨
      ∃ x ∈ l, l.foldl (fun a b => max a (f b)) init = f x := by
  induction l with
  | nil => intro init; exact Or.inl rfl
  | cons y ys ih =>
    intro init
    simp only [List.foldl_cons]
    rcases ih (max init (f y)) with h | ⟨x, hx, hfx⟩
    · rw [h]
      rcases max_choice init (f y) with hm | hm
      · exact Or.inl hm
      · exact Or.inr ⟨y, List.mem_cons_self y ys, hm⟩
    · exact Or.inr ⟨x, List.mem_cons_of_mem y hx, hfx⟩

lemma studentScore_is_max {α : Type} (sim : α → α → ℚ) (probe : α)
    (s : EnrolledStudent α) (hs : s.gallery ≠ []) :
    (∀ e ∈ s.gallery, sim probe e ≤ studentScore sim probe s) ∧
    ∃ e ∈ s.gallery, studentScore sim probe s = sim probe e := by
  unfold studentScore
  match hgal : s.gallery, hs with
  | e :: es, _ =>
    constructor
    · intro x hx
      rcases List.mem_cons.1 hx with h | h
      · subst h
        exact foldl_max_init_le (fun b => sim probe b) es (sim probe x)
      · exact foldl_max_mem_le (fun b => sim probe b) es (sim probe e) x h
    · rcases foldl_max_attained (fun b => sim probe b) es (sim probe e) with h | ⟨x, hx, hfx⟩
      · exact ⟨e, List.mem_cons_self e es, h⟩
      · exact ⟨x, List.mem_cons_of_mem e hx, hfx⟩

lemma beats_true_iff (a b : Nat × ℚ) :
    beats a b = true ↔ (b.2 < a.2 ∨ (a.2 = b.2 ∧ a.1 < b.1)) := by
  unfold beats
  simp

lemma beats_false_iff (a b : Nat × ℚ) :
    beats a b = false ↔ (a.2 ≤ b.2 ∧ (a.2 = b.2 → b.1 ≤ a.1)) := by
  rw [← Bool.not_eq_true, beats_true_iff]
  constructor
  · intro h
    push_neg at h
    exact h
  · intro h
    push_neg
    exact h

lemma bestCandidate_spec {α : Type} (sim : α → α → ℚ) (probe : α) :
    ∀ g : List (EnrolledStudent α), g ≠ [] →
      ∃ s ∈ g, bestCandidate sim probe g = some (s.sid, studentScore sim probe s) ∧
        (∀ t ∈ g, studentScore sim probe t ≤ studentScore sim probe s) ∧
        (∀ t ∈ g, studentScore sim probe t = studentScore sim probe s → s.sid ≤ t.sid) := by
  intro g
  induction g with
  | nil => intro h; exact absurd rfl h
  | cons s rest ih =>
    intro _
    by_cases hr : rest = []
    · subst hr
      refine ⟨s, List.mem_cons_self s [], rfl, ?_, ?_⟩
      · intro t ht
        rcases List.mem_cons.1 ht with h | h
        · subst h; exact le_refl _
        · exact absurd h (List.not_mem_nil t)
      · intro t ht _
        rcases List.mem_cons.1 ht with h | h
        · subst h; exact le_refl _
        · exact absurd h (List.not_mem_nil t)
    · rcases ih hr with ⟨u, hu, hbc, hmax, htie⟩
      by_cases hb : beats (u.sid, studentScore sim probe u)
          (s.sid, studentScore sim probe s) = true
      · refine ⟨u, List.mem_cons_of_mem s hu, ?_, ?_, ?_⟩
        · show bestCandidate sim probe (s :: rest) = _
          unfold bestCandidate
          rw [hbc]
          simp [hb]
        · intro t ht
          rcases List.mem_cons.1 ht with h | h
          · subst h
            rcases (beats_true_iff _ _).1 hb with h1 | ⟨h1, _⟩
            · exact le_of_lt h1
            · exact le_of_eq h1.symm
          · exact hmax t h
        · intro t ht hteq
          rcases List.mem_cons.1 ht with h | h
          · subst h
            rcases (beats_true_iff _ _).1 hb with h1 | ⟨_, h2⟩
            · exact absurd hteq (ne_of_lt h1)
            · exact le_of_lt h2
          · exact htie t h hteq
      · have hbf : beats (u.sid, studentScore sim probe u)
            (s.sid, studentScore sim probe s) = false := by
          rwa [Bool.not_eq_true] at hb
        rcases (beats_false_iff _ _).1 hbf with ⟨hle, hid⟩
        refine ⟨s, List.mem_cons_self s rest, ?_, ?_, ?_⟩
        · show bestCandidate sim probe (s :: rest) = _
          unfold bestCandidate
          rw [hbc]
          simp [hbf]
        · intro t ht
          rcases List.mem_cons.1 ht with h | h
          · subst h; exact le_refl _
          · exact le_trans (hmax t h) hle
        · intro t ht hteq
          rcases List.mem_cons.1 ht with h | h
          · subst h; exact le_refl _
          · have h1 : studentScore sim probe t ≤ studentScore sim probe u := hmax t h
            have h2 : studentScore sim probe u = studentScore sim probe s :=
              le_antisymm hle (hteq ▸ h1)
            have h3 : u.sid ≤ t.sid := htie t h (by rw [hteq, ← h2])
            exact le_trans (hid h2) h3

/-! ## Lemmas: aggregator -/

lemma applyEvent_frames_total (idx : Nat) (st : AggState) (e : Nat × ℚ) :
    (applyEvent idx st e).frames_total = st.frames_total := rfl

lemma foldl_applyEvent_frames_total (idx : Nat) (evs : List (Nat × ℚ)) :
    ∀ st : AggState, (evs.foldl (applyEvent idx) st).frames_total = st.frames_total := by
  induction evs with
  | nil => intro st; rfl
  | cons e rest ih =>
    intro st
    simp only [List.foldl_cons]
    rw [ih, applyEvent_frames_total]

lemma accumulateFrame_frames_total (st : AggState) (idx : Nat) (fr : FrameResult) :
    (accumulateFrame st idx fr).frames_total =
      st.frames_total + (if 0 < fr.faces then 1 else 0) := by
  unfold accumulateFrame
  rw [foldl_applyEvent_frames_total]
  split <;> simp

lemma applyEvent_detections (idx : Nat) (st : AggState) (e : Nat × ℚ) (sid : Nat) :
    ((applyEvent idx st e).tallies sid).detections =
      (st.tallies sid).detections + (if e.1 = sid then 1 else 0) := by
  unfold applyEvent
  by_cases h : sid = e.1
  · subst h; simp
  · have h' : ¬e.1 = sid := fun hh => h hh.symm
    simp [h, h']

lemma foldl_applyEvent_detections (idx : Nat) (evs : List (Nat × ℚ)) (sid : Nat) :
    ∀ st : AggState, ((evs.foldl (applyEvent idx) st).tallies sid).detections =
      (st.tallies sid).detections + (evs.map Prod.fst).count sid := by
  induction evs with
  | nil => intro st; simp
  | cons e rest ih =>
    intro st
    simp only [List.foldl_cons, List.map_cons]
    rw [ih, applyEvent_detections]
    by_cases h : e.1 = sid
    · subst h
      simp [List.count_cons]
      omega
    · have h' : ¬sid = e.1 := fun hh => h hh.symm
      simp [List.count_cons, h, h']

lemma accumulateFrame_detections_le (st : AggState) (idx : Nat) (fr : FrameResult)
    (hwf : FrameWF fr) (sid : Nat)
    (h : (st.tallies sid).detections ≤ st.frames_total) :
    ((accumulateFrame st idx fr).tallies sid).detections ≤
      (accumulateFrame st idx fr).frames_total := by
  rcases hwf with ⟨hnd, hfa⟩
  have hc : (fr.events.map Prod.fst).count sid ≤ 1 :=
    List.nodup_iff_count_le_one.1 hnd sid
  unfold accumulateFrame
  by_cases hf : 0 < fr.faces
  · simp only [if_pos hf]
    rw [foldl_applyEvent_frames_total, foldl_applyEvent_detections]
    dsimp only
    omega
  · have hev : fr.events = [] := by
      by_contra hne
      exact hf (hfa hne)
    simp only [if_neg hf, hev, List.foldl_nil]
    exact h

lemma runFrom_detections_le (frames : List FrameResult)
    (hwf : ∀ fr ∈ frames, FrameWF fr) :
    ∀ (idx : Nat) (st : AggState),
      (∀ sid, (st.tallies sid).detections ≤ st.frames_total) →
      ∀ sid, ((runFrom idx st frames).tallies sid).detections ≤
        (runFrom idx st frames).frames_total := by
  induction frames with
  | nil => intro idx st h sid; exact h sid
  | cons fr rest ih =>
    intro idx st h sid
    simp only [runFrom]
    refine ih (fun f hf => hwf f (List.mem_cons_of_mem _ hf)) (idx + 1) _ ?_ sid
    intro j
    exact accumulateFrame_detections_le st idx fr (hwf fr (List.mem_cons_self fr rest)) j (h j)

lemma runAggregate_detections_le (frames : List FrameResult)
    (hwf : ∀ fr ∈ frames, FrameWF fr) (sid : Nat) :
    ((runAggregate frames).tallies sid).detections ≤ (runAggregate frames).frames_total := by
  unfold runAggregate
  exact runFrom_detections_le frames hwf 0 initState (fun _ => le_refl 0) sid

/-! ## Lemmas: face registration -/

lemma capturePhoto_length_le (ph : List CapturedPhoto) (p : CapturedPhoto) (ok : Bool)
    (h : ph.length ≤ 3) : (capturePhoto ph p ok).length ≤ 3 := by
  unfold capturePhoto
  split
  · exact h
  · split
    · simp only [List.length_append, List.length_cons, List.length_nil]
      omega
    · exact h

lemma removePhoto_length_le (ph : List CapturedPhoto) (pid : Nat) :
    (removePhoto ph pid).length ≤ ph.length :=
  List.length_filter_le _ _

lemma runPhotoOps_aux_length (ops : List PhotoOp) :
    ∀ ph : List CapturedPhoto, ph.length ≤ 3 → (ops.foldl applyPhotoOp ph).length ≤ 3 := by
  induction ops with
  | nil => intro ph h; simpa using h
  | cons op rest ih =>
    intro ph h
    simp only [List.foldl_cons]
    apply ih
    cases op with
    | capture p ok => exact capturePhoto_length_le ph p ok h
    | remove pid => exact le_trans (removePhoto_length_le ph pid) h

lemma runPhotoOps_length (ops : List PhotoOp) : (runPhotoOps ops).length ≤ 3 := by
  unfold runPhotoOps
  exact runPhotoOps_aux_length ops [] (by simp)

/-! ## Claim theorems: frontend flows -/

/-- C8: in the face-registration flow, the captured-photos list never
holds more than 3 photos (capturePhoto is a no-op once 3 photos exist,
and removing a photo from a full list re-enables capture), and handleSave
submits an enrollment request only when at least 3 photos are captured;
consequently every registerEnrollment call issued by this component
carries exactly 3 photo blobs. -/
theorem c8_photo_capture_invariant (ops : List PhotoOp) :
    (runPhotoOps ops).length ≤ 3 ∧
    (∀ ph p ok, 3 ≤ List.length ph → capturePhoto ph p ok = ph) ∧
    (∀ ph p, List.length ph < 3 → capturePhoto ph p true = ph ++ [p]) ∧
    (∀ bs, handleSave (runPhotoOps ops) = some bs → bs.length = 3) := by
  refine ⟨runPhotoOps_length ops, ?_, ?_, ?_⟩
  · intro ph p ok h
    unfold capturePhoto
    simp [h]
  · intro ph p h
    unfold capturePhoto
    simp [Nat.not_le.mpr h]
  · intro bs hbs
    unfold handleSave at hbs
    split at hbs
    · exact absurd hbs (by simp)
    · rename_i hlen
      have h3 : (runPhotoOps ops).length = 3 := by
        have := runPhotoOps_length ops
        omega
      have : bs = (runPhotoOps ops).map (fun p => p.blob) := by
        injection hbs with h; exact h.symm
      rw [this, List.length_map, h3]

/-- C8 witness: three successful captures yield a save request with
exactly 3 blobs. -/
theorem c8_photo_capture_invariant_witness :
    handleSave (runPhotoOps
        [.capture ⟨1, 10⟩ true, .capture ⟨2, 20⟩ true, .capture ⟨3, 30⟩ true]) =
      some [10, 20, 30] ∧
    ([10, 20, 30] : List Nat).length = 3 :=
  ⟨by decide,
    (c8_photo_capture_invariant
        [.capture ⟨1, 10⟩ true, .capture ⟨2, 20⟩ true, .capture ⟨3, 30⟩ true]).2.2.2
      [10, 20, 30] (by decide)⟩

/-- C9: in the login flow, a successful authentication whose stored
profile role differs from the selected role is signed out again with an
error and no navigation; a dashboard is reached only when the profile
role equals the selected role or no profile row was found, and then it is
the selected role's dashboard. -/
theorem c9_login_role_guard (si up : Bool) (pr : Option UserRole) (sel : UserRole) :
    (∀ r, si = true → up = true → pr = some r → r ≠ sel →
      handleLogin si up pr sel = ⟨none, true, true⟩) ∧
    ((handleLogin si up pr sel).navigatedTo ≠ none →
      (pr = none ∨ pr = some sel) ∧ handleLogin si up pr sel = ⟨some sel, false, false⟩) := by
  constructor
  · intro r hsi hup hpr hne
    subst hsi; subst hup; subst hpr
    simp [handleLogin, hne]
  · intro hnav
    cases si with
    | false => simp [handleLogin] at hnav
    | true =>
      cases up with
      | false => simp [handleLogin] at hnav
      | true =>
        cases pr with
        | none => simp [handleLogin]
        | some r =>
          by_cases hr : r = sel
          · subst hr; simp [handleLogin]
          · simp [handleLogin, hr] at hnav

/-- C9 witness: a teacher-profile account logging in through the student
modal is signed out with an error and does not navigate. -/
theorem c9_login_role_guard_witness :
    handleLogin true true (some UserRole.teacher) UserRole.student =
      ⟨none, true, true⟩ :=
  (c9_login_role_guard true true (some UserRole.teacher) UserRole.student).1
    UserRole.teacher rfl rfl rfl (by decide)

/-- C10: handleTestConnection persists the newly entered URL exactly when
the health check on it returns status "ok"; on a failed request or a
non-ok status the stored URL is restored, leaving the configuration
unchanged. -/
theorem c10_test_connection_url (stored entered : String)
    (health : String → Option HealthData) :
    (trimStr entered ≠ "" → ∀ d, health (trimStr entered) = some d → d.status = "ok" →
      handleTestConnection stored entered health = trimStr entered) ∧
    (∀ d, health (trimStr entered) = some d → d.status ≠ "ok" →
      handleTestConnection stored entered health = stored) ∧
    (health (trimStr entered) = none →
      handleTestConnection stored entered health = stored) := by
  refine ⟨?_, ?_, ?_⟩
  · intro hne d hd hok
    unfold handleTestConnection
    simp [hne, hd, hok]
  · intro d hd hnok
    unfold handleTestConnection
    by_cases hne : trimStr entered = ""
    · simp [hne]
    · simp [hne, hd, hnok]
  · intro hd
    unfold handleTestConnection
    by_cases hne : trimStr entered = ""
    · simp [hne]
    · simp [hne, hd]

/-- C10 witness: a reachable backend answering "ok" on the trimmed URL
makes the entered URL the persisted one. -/
theorem c10_test_connection_url_witness :
    handleTestConnection "https://old.example"
        " https://new.example "
        (fun u => if u = "https://new.example" then some ⟨"ok"⟩ else none) =
      trimStr " https://new.example " :=
  (c10_test_connection_url "https://old.example" " https://new.example "
      (fun u => if u = "https://new.example" then some ⟨"ok"⟩ else none)).1
    (by decide) ⟨"ok"⟩ (by decide) (by decide)

/-! ## Claim theorems: aggregator -/

lemma consensus_threshold_eq : consensus_threshold = 3 / 5 := by
  norm_num [consensus_threshold, Rat.mkRat_eq_divInt, Rat.divInt_eq_div]

lemma similarity_threshold_eq : similarity_threshold = 363 / 1000 := by
  norm_num [similarity_threshold, Rat.mkRat_eq_divInt, Rat.divInt_eq_div]

lemma finalizeStudent_is_present_of_ratio_zero (st : AggState) (sid : Nat)
    (h : (st.tallies sid).detections = 0 ∨ st.frames_total = 0) :
    (finalizeStudent st sid).is_present = false := by
  unfold finalizeStudent
  dsimp only
  have hr : (if st.frames_total = 0 then (0 : ℚ)
      else ((st.tallies sid).detections : ℚ) / (st.frames_total : ℚ)) = 0 := by
    by_cases hft : st.frames_total = 0
    · simp [hft]
    · rcases h with h | h
      · simp [hft, h]
      · exact absurd h hft
  rw [hr]
  have hlt : ¬consensus_threshold ≤ (0 : ℚ) := by decide
  simp [hlt]

/-- C4: in Finalize, confidence equals similarity_sum / detections when
the student's detection count is positive and is null otherwise; a
student with zero detections gets is_present = false and confidence =
null, regardless of frames_total. -/
theorem c4_confidence_rule (st : AggState) (sid : Nat) :
    (0 < (st.tallies sid).detections →
      (finalizeStudent st sid).confidence =
        some ((st.tallies sid).similarity_sum / ((st.tallies sid).detections : ℚ))) ∧
    ((st.tallies sid).detections = 0 →
      (finalizeStudent st sid).confidence = none ∧
      (finalizeStudent st sid).is_present = false) := by
  constructor
  · intro h
    unfold finalizeStudent
    simp [h]
  · intro h
    refine ⟨?_, finalizeStudent_is_present_of_ratio_zero st sid (Or.inl h)⟩
    unfold finalizeStudent
    simp [h]

/-- C4 witness: a student matched once gets the average-similarity
confidence; a never-matched student gets confidence null and is marked
absent. -/
theorem c4_confidence_rule_witness :
    (finalizeStudent (runAggregate [⟨1, [(5, mkRat 9 10)]⟩]) 5).confidence =
      some (((runAggregate [⟨1, [(5, mkRat 9 10)]⟩]).tallies 5).similarity_sum /
        ((((runAggregate [⟨1, [(5, mkRat 9 10)]⟩]).tallies 5).detections : Nat) : ℚ)) ∧
    (finalizeStudent initState 7).confidence = none ∧
    (finalizeStudent initState 7).is_present = false :=
  ⟨(c4_confidence_rule (runAggregate [⟨1, [(5, mkRat 9 10)]⟩]) 5).1 (by decide),
   (c4_confidence_rule initState 7).2 rfl⟩

/-- C5: a session whose frames_total is 0 marks every enrolled student
absent and is flagged degenerate; the degenerate flag holds exactly when
frames_total = 0, so an ordinary all-absent session is distinguishable;
the run always yields one decision per enrolled student. -/
theorem c5_degenerate_session (frames : List FrameResult) (roster : List Nat) :
    ((runAggregate frames).frames_total = 0 →
      (processSession frames roster).degenerate = true ∧
      ∀ d ∈ (processSession frames roster).decisions, d.is_present = false) ∧
    ((processSession frames roster).degenerate = true ↔
      (runAggregate frames).frames_total = 0) ∧
    (processSession frames roster).decisions.length = roster.length := by
  refine ⟨?_, ?_, ?_⟩
  · intro h0
    constructor
    · simp [processSession, finalize, h0]
    · intro d hd
      simp only [processSession, finalize, List.mem_map] at hd
      rcases hd with ⟨sid, _, rfl⟩
      exact finalizeStudent_is_present_of_ratio_zero _ sid (Or.inr h0)
  · simp [processSession, finalize]
  · simp [processSession, finalize]

/-- C5 witness: one sampled frame with zero detected faces gives a
degenerate session in which the enrolled students are absent. -/
theorem c5_degenerate_session_witness :
    (processSession [⟨0, []⟩] [1, 2]).degenerate = true ∧
    (finalizeStudent (runAggregate [⟨0, []⟩]) 1).is_present = false :=
  ⟨((c5_degenerate_session [⟨0, []⟩] [1, 2]).1 (by decide)).1,
   ((c5_degenerate_session [⟨0, []⟩] [1, 2]).1 (by decide)).2
     (finalizeStudent (runAggregate [⟨0, []⟩]) 1)
     (List.mem_map_of_mem _ (by decide))⟩

/-- C3: frames_total is incremented by an Accumulate step exactly when
the frame produced at least one DetectedFace; in Scenario B (5 of 10
sampled frames contain a face matching student 1, 5 contain none)
frames_total is 5, the student's detections are 5, the presence ratio is
1.0 and the student is present. -/
theorem c3_frames_total_counts_face_frames :
    (∀ (st : AggState) (idx : Nat) (fr : FrameResult),
      (accumulateFrame st idx fr).frames_total =
        st.frames_total + (if 0 < fr.faces then 1 else 0)) ∧
    (runAggregate framesScenB).frames_total = 5 ∧
    (finalizeStudent (runAggregate framesScenB) 1).frames_detected = 5 ∧
    (finalizeStudent (runAggregate framesScenB) 1).presence_frac = 1 ∧
    (finalizeStudent (runAggregate framesScenB) 1).is_present = true := by
  have hft5 : (runAggregate framesScenB).frames_total = 5 := by decide
  have hdet : ((runAggregate framesScenB).tallies 1).detections = 5 := by decide
  have h4 : (finalizeStudent (runAggregate framesScenB) 1).presence_frac = 1 := by
    unfold finalizeStudent
    dsimp only
    rw [hft5, hdet]
    norm_num
  refine ⟨fun st idx fr => accumulateFrame_frames_total st idx fr, hft5, ?_, h4, ?_⟩
  · show ((runAggregate framesScenB).tallies 1).detections = 5
    exact hdet
  · have h5 : (finalizeStudent (runAggregate framesScenB) 1).is_present =
        decide (consensus_threshold ≤
          (finalizeStudent (runAggregate framesScenB) 1).presence_frac) := rfl
    rw [h5, h4]
    decide

/-- C1: for a session with frames_total > 0 and well-formed per-frame
match events, every enrolled student's decision has presence_ratio =
detections / frames_total lying in [0,1], and is_present holds exactly
when the ratio reaches the 0.60 consensus threshold (boundary
inclusive). -/
theorem c1_presence_ratio_bounds (frames : List FrameResult) (roster : List Nat)
    (hwf : ∀ fr ∈ frames, FrameWF fr)
    (hft : 0 < (runAggregate frames).frames_total) :
    ∀ d ∈ (processSession frames roster).decisions,
      d.presence_frac = (d.frames_detected : ℚ) / (d.frames_total : ℚ) ∧
      0 ≤ d.presence_frac ∧ d.presence_frac ≤ 1 ∧
      (d.is_present = true ↔ consensus_threshold ≤ d.presence_frac) := by
  intro d hd
  simp only [processSession, finalize, List.mem_map] at hd
  rcases hd with ⟨sid, _, rfl⟩
  have hne : (runAggregate frames).frames_total ≠ 0 := Nat.pos_iff_ne_zero.1 hft
  have hdet := runAggregate_detections_le frames hwf sid
  have hpos : (0 : ℚ) < ((runAggregate frames).frames_total : ℚ) := by
    exact_mod_cast hft
  unfold finalizeStudent
  dsimp only
  rw [if_neg hne]
  refine ⟨rfl, ?_, ?_, ?_⟩
  · exact div_nonneg (Nat.cast_nonneg _) (le_of_lt hpos)
  · exact (div_le_one hpos).2 (by exact_mod_cast hdet)
  · simp

/-- C1 witness: one frame with one face matched to student 1 at
similarity 0.9; the presence predicate is exactly the ≥ 0.60 test. -/
theorem c1_presence_ratio_bounds_witness :
    0 < (runAggregate [⟨1, [(1, mkRat 9 10)]⟩]).frames_total ∧
    ((finalizeStudent (runAggregate [⟨1, [(1, mkRat 9 10)]⟩]) 1).is_present = true ↔
      consensus_threshold ≤
        (finalizeStudent (runAggregate [⟨1, [(1, mkRat 9 10)]⟩]) 1).presence_frac) :=
  ⟨by decide,
   (c1_presence_ratio_bounds [⟨1, [(1, mkRat 9 10)]⟩] [1] (by decide) (by decide)
     (finalizeStudent (runAggregate [⟨1, [(1, mkRat 9 10)]⟩]) 1)
     (List.mem_map_of_mem _ (by decide))).2.2.2⟩

/-! ## Claim theorems: matcher -/

/-- C2: for a non-empty gallery whose students each have at least one
gallery embedding, every student's score is the maximum similarity over
that student's embeddings (best-of-N, not the average); match returns a
student attaining the highest score together with that score, and yields
NONE exactly when that score is below the 0.363 threshold — a score
equal to 0.363 counts as a match. -/
theorem c2_matcher_best_of_n {α : Type} (sim : α → α → ℚ) (probe : α)
    (g : List (EnrolledStudent α)) (hg : g ≠ [])
    (hgal : ∀ s ∈ g, s.gallery ≠ []) :
    (∀ s ∈ g, (∀ e ∈ s.gallery, sim probe e ≤ studentScore sim probe s) ∧
      ∃ e ∈ s.gallery, studentScore sim probe s = sim probe e) ∧
    ∃ s ∈ g,
      bestCandidate sim probe g = some (s.sid, studentScore sim probe s) ∧
      (∀ t ∈ g, studentScore sim probe t ≤ studentScore sim probe s) ∧
      matchProbe sim similarity_threshold probe g =
        (if similarity_threshold ≤ studentScore sim probe s
          then some (s.sid, studentScore sim probe s) else none) := by
  constructor
  · intro s hs
    exact studentScore_is_max sim probe s (hgal s hs)
  · rcases bestCandidate_spec sim probe g hg with ⟨s, hs, hbc, hmax, _⟩
    refine ⟨s, hs, hbc, hmax, ?_⟩
    unfold matchProbe
    rw [hbc]

/-- C2 witness: a single student whose best gallery embedding scores
exactly 0.363 against the probe; the boundary counts as a match. -/
theorem c2_matcher_best_of_n_witness :
    galleryW ≠ [] ∧
    ∃ s ∈ galleryW,
      bestCandidate simId 0 galleryW = some (s.sid, studentScore simId 0 s) ∧
      (∀ t ∈ galleryW, studentScore simId 0 t ≤ studentScore simId 0 s) ∧
      matchProbe simId similarity_threshold 0 galleryW =
        (if similarity_threshold ≤ studentScore simId 0 s
          then some (s.sid, studentScore simId 0 s) else none) :=
  ⟨by simp [galleryW],
   (c2_matcher_best_of_n simId 0 galleryW (by simp [galleryW]) (by simp [galleryW])).2⟩

/-- C6: for any thresholds t1 < t2, the frames counted as a match for a
student at the stricter threshold t2 form a subset of those counted at
t1. -/
theorem c6_threshold_monotone {α : Type} (sim : α → α → ℚ)
    (g : List (EnrolledStudent α)) (probes : List α) (sid : Nat)
    (t1 t2 : ℚ) (h : t1 < t2) :
    matchedFrames sim t2 g probes sid ⊆ matchedFrames sim t1 g probes sid := by
  intro i hi
  unfold matchedFrames at hi ⊢
  rcases List.mem_map.1 hi with ⟨p, hp, rfl⟩
  rcases List.mem_filter.1 hp with ⟨hmem, hmatch⟩
  refine List.mem_map.2 ⟨p, List.mem_filter.2 ⟨hmem, ?_⟩, rfl⟩
  unfold frameMatches matchProbe at hmatch ⊢
  cases hbc : bestCandidate sim p.2 g with
  | none => rw [hbc] at hmatch; simp at hmatch
  | some c =>
    rw [hbc] at hmatch
    dsimp only at hmatch ⊢
    by_cases hth : t2 ≤ c.2
    · have h1 : t1 ≤ c.2 := le_trans (le_of_lt h) hth
      rw [if_pos hth] at hmatch
      rw [if_pos h1]
      exact hmatch
    · rw [if_neg hth] at hmatch
      simp at hmatch

/-- C6 witness: raising the threshold from 0.25 to 0.75 can only shrink
the matched-frame set of student 1. -/
theorem c6_threshold_monotone_witness :
    mkRat 1 4 < mkRat 3 4 ∧
    matchedFrames simId (mkRat 3 4) galleryW [0] 1 ⊆
      matchedFrames simId (mkRat 1 4) galleryW [0] 1 :=
  ⟨by decide,
   c6_threshold_monotone simId galleryW [0] 1 (mkRat 1 4) (mkRat 3 4) (by decide)⟩

/-- C7: match is deterministic — identical (probe, gallery) inputs give
identical results — and when several students attain the winning score
the returned student id is the lowest among them. -/
theorem c7_match_deterministic {α : Type} (sim : α → α → ℚ) (θ : ℚ)
    (p₁ p₂ : α) (g₁ g₂ : List (EnrolledStudent α))
    (hp : p₁ = p₂) (hg : g₁ = g₂) :
    matchProbe sim θ p₁ g₁ = matchProbe sim θ p₂ g₂ ∧
    ∀ (sid : Nat) (sc : ℚ) (s : EnrolledStudent α),
      matchProbe sim θ p₁ g₁ = some (sid, sc) → s ∈ g₁ →
      studentScore sim p₁ s = sc → sid ≤ s.sid := by
  subst hp; subst hg
  refine ⟨rfl, ?_⟩
  intro sid sc s hm hs hsc
  have hne : g₁ ≠ [] := by
    intro hnil
    subst hnil
    simp [matchProbe, bestCandidate] at hm
  rcases bestCandidate_spec sim p₁ g₁ hne with ⟨u, hu, hbc, _, htie⟩
  unfold matchProbe at hm
  rw [hbc] at hm
  by_cases hth : θ ≤ studentScore sim p₁ u
  · simp only [hth, if_true] at hm
    have hpair : u.sid = sid ∧ studentScore sim p₁ u = sc := by
      have := Option.some.inj hm
      exact ⟨congrArg Prod.fst this, congrArg Prod.snd this⟩
    rcases hpair with ⟨hid, hscore⟩
    subst hid
    exact htie s hs (by rw [hsc, ← hscore])
  · simp [hth] at hm

/-- C7 witness: students 5 and 3 both score 0.5; match returns student 3,
the lowest id, and 3 ≤ 5. -/
theorem c7_match_deterministic_witness :
    matchProbe simId similarity_threshold (0 : ℚ) galleryTie = some (3, mkRat 1 2) ∧
    3 ≤ (⟨5, "A", [mkRat 1 2]⟩ : EnrolledStudent ℚ).sid :=
  ⟨by decide,
   (c7_match_deterministic simId similarity_threshold 0 0 galleryTie galleryTie rfl rfl).2
     3 (mkRat 1 2) ⟨5, "A", [mkRat 1 2]⟩ (by decide) (by decide) (by decide)⟩

end FaceAttendance
